import Mathlib

/-!
Verification of the MindTheGap hybrid GraphRAG retrieval engine
(`src/backend/graph_rag.py`, `src/backend/vector_embeddings.py`,
`src/backend/web_search.py`, startup wiring in `src/backend/main.py`).

The Python data model is shallowly embedded:
* a Python scalar value is `Val` (None, a number, or a string);
  numbers are modelled as exact rationals — every concrete number used in
  the theorems below is integer-valued and exactly representable as a
  binary float, so Python float arithmetic agrees with `ℚ` there;
* a Python dict is an association list `Dict` with first-match lookup and
  in-place update (Python dicts hold each key at most once, which the
  insert/update operations below preserve);
* the NetworkX graph of `graph_rag.py` is used purely as a keyed map from
  node id to attribute dict, so it is embedded as `Graph`, an association
  list from node id to `Dict`;
* external collaborators (spaCy NER, the FAISS index, the Exa web search,
  the government-indicator client) are oracle parameters.
-/

inductive Val where
  | null : Val
  | num (q : ℚ) : Val
  | str (s : String) : Val
deriving DecidableEq, Repr

abbrev Dict := List (String × Val)

/-- Python `d.get(k)` / `d[k]`: first-match lookup in the association list. -/
def dictGet : Dict → String → Option Val
  | [], _ => none
  | (k', v') :: rest, k => if k' = k then some v' else dictGet rest k

/-- Python `d[k] = v`: overwrite the value in place if the key is present,
append the pair otherwise. -/
def dictInsert : Dict → String → Val → Dict
  | [], k, v => [(k, v)]
  | (k', v') :: rest, k, v =>
      if k' = k then (k', v) :: rest else (k', v') :: dictInsert rest k v

/-- Python `old.update(incoming)` (dict.update): every incoming key
overwrites, keys absent from `incoming` are untouched. -/
def dictUpdate (old incoming : Dict) : Dict :=
  incoming.foldl (fun d p => dictInsert d p.1 p.2) old

/-- Python `d.setdefault(k, v)`: add the pair only when the key is absent. -/
def dictSetdefault (d : Dict) (k : String) (v : Val) : Dict :=
  if (dictGet d k).isSome then d else d ++ [(k, v)]

abbrev Graph := List (String × Dict)

/-- Lookup of a node by id (`node_id in graph` / `graph.nodes[node_id]`). -/
def graphGet : Graph → String → Option Dict
  | [], _ => none
  | (i', d') :: rest, i => if i' = i then some d' else graphGet rest i

/-- Store a node dict under an id: overwrite in place when present
(`graph.nodes[id].update` result), append otherwise (`graph.add_node`). -/
def graphSet : Graph → String → Dict → Graph
  | [], i, d => [(i, d)]
  | (i', d') :: rest, i, d =>
      if i' = i then (i', d) :: rest else (i', d') :: graphSet rest i d

/-- Python `location_name.replace(' ', '_')`. -/
def slugify (s : String) : String :=
  ⟨s.toList.map fun c => if c = ' ' then '_' else c⟩

/-- `graph_rag.add_node_to_graph`: reject a payload with a missing or
falsy `'Neighborhood Name'`; otherwise upsert under `local_{slug}` —
a fresh id is added with `data_type` defaulted to `'local'`, an existing
id is merged with `dict.update` (incoming fields take precedence).
Non-string location names never occur (every caller stores the query
string there), so only the string case is usable. -/
def addNodeToGraph (g : Graph) (nodeData : Dict) : Graph :=
  match dictGet nodeData "Neighborhood Name" with
  | some (Val.str locName) =>
      if locName = "" then g
      else
        let nodeId := "local_" ++ slugify locName
        match graphGet g nodeId with
        | none => graphSet g nodeId (dictSetdefault nodeData "data_type" (Val.str "local"))
        | some existing => graphSet g nodeId (dictUpdate existing nodeData)
  | _ => g

-- Basic lemmas about the dict operations.

theorem dictGet_dictInsert_self (d : Dict) (k : String) (v : Val) :
    dictGet (dictInsert d k v) k = some v := by
  induction d with
  | nil => simp [dictInsert, dictGet]
  | cons p rest ih =>
      obtain ⟨k', v'⟩ := p
      by_cases h : k' = k
      · simp [dictInsert, dictGet, h]
      · simp [dictInsert, dictGet, h, ih]

theorem dictGet_dictInsert_ne (d : Dict) (k k₀ : String) (v : Val) (h : k ≠ k₀) :
    dictGet (dictInsert d k v) k₀ = dictGet d k₀ := by
  induction d with
  | nil => simp [dictInsert, dictGet, h]
  | cons p rest ih =>
      obtain ⟨k', v'⟩ := p
      by_cases h' : k' = k
      · subst h'
        simp [dictInsert, dictGet, h]
      · simp [dictInsert, dictGet, h', ih]

theorem dictGet_dictUpdate_not_mem (old incoming : Dict) (k : String)
    (h : ∀ p ∈ incoming, p.1 ≠ k) :
    dictGet (dictUpdate old incoming) k = dictGet old k := by
  induction incoming generalizing old with
  | nil => rfl
  | cons p rest ih =>
      have hp : p.1 ≠ k := h p (List.mem_cons_self p rest)
      have hrest : ∀ q ∈ rest, q.1 ≠ k := fun q hq => h q (List.mem_cons_of_mem p hq)
      show dictGet (dictUpdate (dictInsert old p.1 p.2) rest) k = dictGet old k
      rw [ih (dictInsert old p.1 p.2) hrest, dictGet_dictInsert_ne old p.1 k p.2 hp]

theorem dictGet_dictUpdate_last (old incoming : Dict) (k : String) (v : Val)
    (h : ∀ p ∈ incoming, p.1 ≠ k) :
    dictGet (dictUpdate old (incoming ++ [(k, v)])) k = some v := by
  induction incoming generalizing old with
  | nil => exact dictGet_dictInsert_self old k v
  | cons p rest ih =>
      have hrest : ∀ q ∈ rest, q.1 ≠ k := fun q hq => h q (List.mem_cons_of_mem p hq)
      exact ih (dictInsert old p.1 p.2) hrest

theorem dictGet_append_single_ne (d : Dict) (k k₀ : String) (v : Val) (h : k ≠ k₀) :
    dictGet (d ++ [(k, v)]) k₀ = dictGet d k₀ := by
  induction d with
  | nil => simp [dictGet, h]
  | cons p rest ih =>
      obtain ⟨k', v'⟩ := p
      by_cases h' : k' = k₀
      · simp [dictGet, h']
      · simp only [List.cons_append, dictGet, h', if_false]
        exact ih

theorem dictGet_dictSetdefault_ne (d : Dict) (k k₀ : String) (v : Val) (h : k ≠ k₀) :
    dictGet (dictSetdefault d k v) k₀ = dictGet d k₀ := by
  unfold dictSetdefault
  by_cases hd : (dictGet d k).isSome
  · simp [hd]
  · simp [hd, dictGet_append_single_ne d k k₀ v h]

-- String helpers mirroring the Python primitives used by the engine.

/-- `charsStartsWith s p`: the char list `s` starts with the pattern `p`. -/
def charsStartsWith : List Char → List Char → Bool
  | _, [] => true
  | [], _ :: _ => false
  | c :: cs, p :: ps => c = p && charsStartsWith cs ps

/-- Substring scan over char lists (any position). -/
def charsContain : List Char → List Char → Bool
  | [], p => p.isEmpty
  | c :: cs, p => charsStartsWith (c :: cs) p || charsContain cs p

/-- Python `pat in s` on strings: code-point substring containment. -/
def strContainsB (s pat : String) : Bool :=
  charsContain s.toList pat.toList

/-- Lexicographic comparison of char lists by code point: the order
Python uses on strings. -/
def charsLE : List Char → List Char → Bool
  | [], _ => true
  | _ :: _, [] => false
  | a :: as, b :: bs => if a = b then charsLE as bs else decide (a < b)

/-- Python `s <= t` on strings. -/
def strLE (s t : String) : Bool :=
  charsLE s.toList t.toList

/-- Python `s.lower()` (ASCII behaviour, which covers every phrase table
and query the engine lower-cases). -/
def lowerString (s : String) : String :=
  ⟨s.toList.map Char.toLower⟩

/-- Python `s.strip()`: drop leading and trailing whitespace. -/
def pyStrip (s : String) : String :=
  ⟨((s.toList.dropWhile Char.isWhitespace).reverse.dropWhile
      Char.isWhitespace).reverse⟩

/-- Python `s.startswith(pat)`. -/
def strStartsWith (s pat : String) : Bool :=
  charsStartsWith s.toList pat.toList

/-- Helper for `pyTitle`: the Bool records whether the previous character
was alphabetic (Python title-cases the first letter after any non-letter). -/
def pyTitleAux : Bool → List Char → List Char
  | _, [] => []
  | prevAlpha, c :: cs =>
      let a := c.isAlpha
      (if a then (if prevAlpha then c.toLower else c.toUpper) else c) :: pyTitleAux a cs

/-- Python `s.title()` (ASCII behaviour, which covers every string the
engine titles: the `data_type` tags `local`, `networth`, `Unknown`, ...). -/
def pyTitle (s : String) : String :=
  ⟨pyTitleAux false s.toList⟩

/-- Python `", ".join(l)`. -/
def joinComma : List String → String
  | [] => ""
  | [s] => s
  | s :: rest => s ++ ", " ++ joinComma rest

-- Numeric rendering, mirroring Python `f"{x:.1f}"` and `f"{x:,.0f}"`.
-- Rationals stand in for Python binary floats; they agree on every value
-- whose decimal rounding is not a tie at the dropped digit (in particular
-- on all concrete inputs evaluated in the theorems below, which are
-- exactly representable); at exact decimal ties Python rounds by the
-- nearest binary representation of the quotient.

/-- Round `n / d` (for `d > 0`) to the nearest integer, ties to even —
the rounding Python float formatting applies to the dropped digits.
Stated on an explicit fraction so every use is exact integer
arithmetic. -/
def roundHalfEvenFrac (n d : Int) : Int :=
  let f := Int.fdiv n d
  let r := n - f * d
  if 2 * r < d then f
  else if d < 2 * r then f + 1
  else if f % 2 = 0 then f else f + 1

/-- Render a nonnegative tenths count `m` as `"X.Y"`. -/
def tenthsString (m : Nat) : String :=
  toString (m / 10) ++ "." ++ toString (m % 10)

/-- Python `f"{q/1000:.1f}"` on the exact rational: `q/1000` rounded to
tenths, ties to even (`q·10/1000` = `num·10 / (den·1000)`). Since only
`|q| ≥ 1000` reaches this, the rounded value is nonzero and Python's
negative-zero corner cannot occur. -/
def fmtBillions (q : ℚ) : String :=
  let t := roundHalfEvenFrac (q.num * 10) ((q.den : Int) * 1000)
  (if t < 0 then "-" else "") ++ tenthsString t.natAbs

/-- Insert a comma after every three digits of a reversed digit list. -/
def groupDigitsRev : List Char → List Char
  | a :: b :: c :: d :: rest => a :: b :: c :: ',' :: groupDigitsRev (d :: rest)
  | l => l

/-- Thousands-separated rendering of a natural number. -/
def commaNat (n : Nat) : String :=
  ⟨(groupDigitsRev (toString n).toList.reverse).reverse⟩

/-- Python `f"{q:,.0f}"`. -/
def fmtCommaZeroDecimal (q : ℚ) : String :=
  let t := roundHalfEvenFrac q.num (q.den : Int)
  (if t < 0 then "-" else "") ++ commaNat t.natAbs

/-- Python `abs(value) >= 1_000` on the exact rational:
`|q| ≥ 1000 ↔ 1000 · den ≤ |num|`. -/
def absGE1000 (q : ℚ) : Bool :=
  1000 * q.den ≤ q.num.natAbs

/-- The currency rendering of `create_context_from_nodes` (graph_rag.py
lines 190–195): magnitude at least 1,000 renders as billions with one
decimal and an uppercase `B` suffix, anything smaller as a
thousands-separated dollar amount. -/
def formatCurrency (q : ℚ) : String :=
  if absGE1000 q then "$" ++ fmtBillions q ++ "B"
  else "$" ++ fmtCommaZeroDecimal q

/-- Python `str(v)` for the attribute values that reach the renderer.
Header and local-data fields hold strings in the ingested data; the
numeric arm renders the integer form (a stand-in for Python float repr,
never exercised by the theorems below). -/
def pyStr : Val → String
  | Val.null => "None"
  | Val.str s => s
  | Val.num q => if q.den = 1 then toString q.num else toString q

/-- `node_data.get(field, 'Unknown')` rendered through an f-string. -/
def headerStr (d : Dict) (k : String) : String :=
  match dictGet d k with
  | none => "Unknown"
  | some v => pyStr v

/-- Python `float(node_data[field])` for the values present in the data:
numbers convert directly, integer-literal strings parse, any other
string raises `ValueError` (the `none` case; Python also parses
decimal/exponent literals, which the ingested data never stores). -/
def valToNum : Val → Option ℚ
  | Val.num q => some q
  | Val.str s => (s.toInt?).map fun n => (n : ℚ)
  | Val.null => none

/-- The nine financial fields scanned by `create_context_from_nodes`. -/
def keyFields : List String :=
  ["Net worth", "Assets", "Real estate",
   "Corporate equities and mutual fund shares", "Liabilities",
   "Home mortgages", "Consumer credit", "Median Income", "Mean Income"]

/-- One `  • field: value` line: absent or `None` fields are skipped,
numeric values are rendered as currency, non-numeric strings raw. -/
def renderFieldLine (d : Dict) (field : String) : String :=
  match dictGet d field with
  | none => ""
  | some Val.null => ""
  | some v =>
      match valToNum v with
      | some q => "  • " ++ field ++ ": " ++ formatCurrency q ++ "\n"
      | none => "  • " ++ field ++ ": " ++ pyStr v ++ "\n"

/-- One node paragraph of `create_context_from_nodes`. -/
def renderNode (d : Dict) : String :=
  let dataType :=
    match dictGet d "data_type" with
    | some (Val.str s) => s
    | _ => "Unknown"
  "📊 " ++ pyTitle dataType ++ " | Group: " ++ headerStr d "Category" ++
    " | Date: " ++ headerStr d "Date" ++ "\n" ++
    String.join (keyFields.map (renderFieldLine d)) ++ "\n"

/-- The byte-exact no-data sentinel of `create_context_from_nodes`. -/
def noDataMsg : String :=
  "No specific data found for the wealth groups or time periods in the question."

/-- `graph_rag.create_context_from_nodes`. -/
def createContextFromNodes (nodes : List Dict) : String :=
  if nodes = [] then noDataMsg
  else
    "=== FEDERAL RESERVE WEALTH DISTRIBUTION DATA ===\n\n" ++
      String.join (nodes.map renderNode)

-- Entity extraction (`graph_rag.extract_entities`). The spaCy NER pass is
-- an oracle `ner : String → List String` returning the GPE/LOC entity
-- texts; everything after it is embedded from the source.

/-- The gazetteer of metro names hard-coded in `extract_entities`. -/
def techCities : List String :=
  ["Silicon Valley", "Bay Area", "Seattle", "San Francisco",
   "Austin", "Boston", "New York", "Los Angeles", "Denver", "Portland",
   "Chicago", "Washington DC", "Miami", "Atlanta", "Houston"]

/-- The wealth-percentile phrase map, in source (dict-insertion) order. -/
def wealthTerms : List (String × String) :=
  [("top 1%", "Top1Percent"), ("top 0.1%", "TopPt1Percent"),
   ("top one percent", "Top1Percent"), ("richest", "Top1Percent"),
   ("wealthy", "Top1Percent"), ("billionaire", "TopPt1Percent"),
   ("next 9", "Next9Percent"), ("upper middle", "Next9Percent"),
   ("next 40", "Next40Percent"), ("middle class", "Next40Percent"),
   ("bottom 50", "Bottom50Percent"), ("bottom half", "Bottom50Percent"),
   ("poorest", "Bottom50Percent"), ("poor", "Bottom50Percent"),
   ("working class", "Bottom50Percent")]

/-- The demographic/data-type phrase map, in source order. -/
def dataTypeTerms : List (String × String) :=
  [("wealth", "wealth"), ("net worth", "wealth"),
   ("income", "income"), ("earnings", "income"),
   ("assets", "wealth"), ("property", "housing"),
   ("race", "race"), ("racial", "race"), ("ethnicity", "race"),
   ("age", "age"), ("generation", "generation"),
   ("education", "education"), ("college", "education"),
   ("employment", "employment"), ("jobs", "employment"),
   ("gender", "gender"), ("women", "gender"), ("men", "gender")]

/-- Geographic mentions: NER hits plus gazetteer substring matches. -/
def geoEntitiesOf (ner : String → List String) (question : String) : List String :=
  ner question ++
    techCities.filter fun c => strContainsB (lowerString question) (lowerString c)

/-- Wealth-percentile tags found in the lower-cased question. -/
def wealthGroupsOf (question : String) : List String :=
  (wealthTerms.filter fun p => strContainsB (lowerString question) p.1).map (·.2)

/-- Demographic tags found in the lower-cased question. -/
def demographicsOf (question : String) : List String :=
  (dataTypeTerms.filter fun p => strContainsB (lowerString question) p.1).map (·.2)

/-- Intent classification: trend > policy > comparison > general. -/
def queryTypeOf (question : String) : String :=
  let ql := lowerString question
  if ["trend", "change", "increase", "decrease", "growth"].any (strContainsB ql ·) then
    "trend"
  else if ["policy", "recommend", "solution", "help", "fix"].any (strContainsB ql ·) then
    "policy"
  else if ["compare", "difference", "vs", "versus"].any (strContainsB ql ·) then
    "comparison"
  else "general"

/-- The flat entity list before the default substitution: `GEO:`-prefixed
geographic mentions, then wealth groups, then demographics. -/
def flatListPre (ner : String → List String) (question : String) : List String :=
  (geoEntitiesOf ner question).map (fun g => "GEO:" ++ g) ++
    wealthGroupsOf question ++ demographicsOf question

structure EntityBundle where
  geographic : List String
  wealth_groups : List String
  demographics : List String
  query_type : String
  entities_list : List String
deriving DecidableEq, Repr

/-- `graph_rag.extract_entities`, with spaCy embedded as the `ner` oracle. -/
def extract_entities (ner : String → List String) (question : String) : EntityBundle :=
  if flatListPre ner question = [] then
    { geographic := geoEntitiesOf ner question
      wealth_groups := ["Top1Percent", "Bottom50Percent"]
      demographics := ["wealth"]
      query_type := queryTypeOf question
      entities_list := ["Top1Percent", "Bottom50Percent", "wealth"] }
  else
    { geographic := geoEntitiesOf ner question
      wealth_groups := wealthGroupsOf question
      demographics := demographicsOf question
      query_type := queryTypeOf question
      entities_list := flatListPre ner question }

-- Hybrid search result handling (`graph_rag.search_graph`, lines 129–167).
-- A candidate is tagged with a `Nat` standing for the CPython object id:
-- the dedup loop keys on `id(node)`, so two structurally equal dicts with
-- different tags are distinct candidates.

abbrev TNode := Nat × Dict

/-- The similarity floor applied to semantic hits (line 137): strictly
greater than 0.3 (the Python float literal 0.3 denotes the binary value
nearest to 3/10; no similarity produced by the engine equals it exactly,
and the claims only need the weak bound, so the rational 3/10 stands in). -/
def semanticKeep (results : List (Dict × ℚ)) : List (Dict × ℚ) :=
  results.filter fun p => (3 : ℚ) / 10 < p.2

/-- The semantic hits incorporated into the candidate set: each kept doc
becomes a fresh dict carrying a transient `_similarity_score` field
(line 138, `{**doc, '_similarity_score': similarity_score}`). -/
def incorporateSemantic (results : List (Dict × ℚ)) : List (Dict × ℚ) :=
  (semanticKeep results).map fun p =>
    (dictInsert p.1 "_similarity_score" (Val.num p.2), p.2)

/-- `x.get('Date', '1989:Q1')` as a sort key. Bulk ingestion always stores
`Date` as a string (`main.py` line 270), so only the string arm occurs. -/
def dateKey (p : TNode) : String :=
  match dictGet p.2 "Date" with
  | some (Val.str s) => s
  | _ => "1989:Q1"

/-- Stable descending insertion by `dateKey`: an element is placed before
the first strictly older entry, after equal keys — the order Python's
stable `sorted(..., reverse=True)` produces. -/
def insertByDateDesc (x : TNode) : List TNode → List TNode
  | [] => [x]
  | y :: ys =>
      if strLE (dateKey y) (dateKey x) then x :: y :: ys
      else y :: insertByDateDesc x ys

/-- Stable sort by `Date` descending (line 162, `reverse=True`). -/
def sortByDateDesc : List TNode → List TNode
  | [] => []
  | x :: xs => insertByDateDesc x (sortByDateDesc xs)

/-- The `seen_ids` dedup loop (lines 152–158): keep the first occurrence
of each object id, preserving order. -/
def dedupByIdTag (l : List TNode) : List TNode :=
  (l.foldl
    (fun (acc : List Nat × List TNode) p =>
      if p.1 ∈ acc.1 then acc else (p.1 :: acc.1, acc.2 ++ [p]))
    ([], [])).2

/-- The tail of `search_graph` (lines 151–167): dedup, then if more than
10 candidates remain, sort by date descending and truncate to 10. -/
def searchGraphCap (relevant : List TNode) : List TNode :=
  let unique := dedupByIdTag relevant
  if 10 < unique.length then (sortByDateDesc unique).take 10 else unique

-- Context assembly (`graph_rag.get_graph_rag_context`, lines 260–312).
-- The trend and policy collaborators are oracles whose `none` value
-- models a raised exception (caught and logged, the section is skipped).

/-- One line of the local/regional block: skipped for identity fields and
URL-valued entries (line 303). -/
def localLine (p : String × Val) : String :=
  if p.1 = "Neighborhood Name" ∨ p.1 = "data_type" then ""
  else if strStartsWith (pyStr p.2) "http" then ""
  else "  " ++ p.1 ++ ": " ++ pyStr p.2 ++ "\n"

/-- One paragraph of the local/regional block (lines 299–304). -/
def renderLocal (d : Dict) : String :=
  let fallback :=
    match dictGet d "region" with
    | some v => v
    | none => Val.str "Local area"
  let locName :=
    match dictGet d "Neighborhood Name" with
    | some v => pyStr v
    | none => pyStr fallback
  "\nData for " ++ locName ++ ":\n" ++ String.join (d.map localLine)

/-- One policy recommendation rendered by lines 290–292: title,
priority score (`rec.get('priority_score', 0)`), description. -/
def renderRec (r : String × ℚ × String) : String :=
  "\n• " ++ r.1 ++ " (Priority: " ++ pyStr (Val.num r.2.1) ++ "/10)\n  " ++ r.2.2 ++ "\n"

/-- The context-assembly tail of `get_graph_rag_context` (lines 260–312):
base context from the ranked nodes, optional trend block, optional policy
block (top 3 recommendations), local/regional block, and the disclosure
note when geographic entities were requested but nothing local was found.
`trendSummary`/`policyRecs` are the collaborator outputs, `none` when the
collaborator raised. -/
def buildContext (relevantNodes : List Dict) (queryType : String)
    (geoEntities : List String) (localNodes : List Dict)
    (trendSummary : Option String)
    (policyRecs : Option (List (String × ℚ × String))) : String :=
  let ctx := createContextFromNodes relevantNodes
  let ctx :=
    if queryType = "trend" ∧ relevantNodes ≠ [] then
      match trendSummary with
      | some t => ctx ++ "\n\n=== TREND ANALYSIS ===\n" ++ "Overall trend: " ++ t ++ "\n"
      | none => ctx
    else ctx
  let ctx :=
    if queryType = "policy" ∧ relevantNodes ≠ [] then
      match policyRecs with
      | some recs =>
          if recs ≠ [] then
            ctx ++ "\n\n=== POLICY RECOMMENDATIONS ===\n" ++
              String.join ((recs.take 3).map renderRec)
          else ctx
      | none => ctx
    else ctx
  let ctx :=
    if localNodes ≠ [] then
      ctx ++ "\n\n=== LOCAL & REGIONAL DATA ===\n" ++
        String.join (localNodes.map renderLocal)
    else ctx
  if geoEntities ≠ [] ∧ localNodes = [] then
    ctx ++ "\n\nNote: While I searched for specific data on " ++
      joinComma geoEntities ++
      ", the Federal Reserve data above represents overall U.S. wealth distribution patterns."
  else ctx

-- Geo enrichment (`get_graph_rag_context` lines 234–258) and the session
-- behaviour over repeated queries. The government-indicator client and
-- the web search collaborator are oracles; each evaluation of `web`
-- stands for one invocation of `search_and_extract_web_data`, so the
-- returned counter is the number of network calls to that collaborator.

structure VectorStoreState where
  metadata : List Dict
  indexBuilt : Bool
deriving DecidableEq, Repr

structure RagState where
  graph : Graph
  vs : VectorStoreState
deriving DecidableEq, Repr

/-- The per-location body of the geographic loop: the government client is
consulted (its hits join `local_nodes`), then the web collaborator is
always invoked — there is no cache, no graph lookup, and no guard before
the call; a truthy result is upserted into the graph and appended.
The vector store is not touched anywhere in this loop. -/
def enrichLocation (gov : String → Option Dict) (web : String → Dict)
    (st : RagState) (locals : List Dict) (loc : String) :
    RagState × List Dict × Nat :=
  let locals :=
    match gov loc with
    | some ind => locals ++ [ind]
    | none => locals
  let d := web loc
  if d = [] then (st, locals, 1)
  else ({ st with graph := addNodeToGraph st.graph d }, locals ++ [d], 1)

/-- One fold step of the geographic loop, accumulating calls. -/
def enrichStep (gov : String → Option Dict) (web : String → Dict)
    (acc : RagState × List Dict × Nat) (loc : String) :
    RagState × List Dict × Nat :=
  let r := enrichLocation gov web acc.1 acc.2.1 loc
  (r.1, r.2.1, acc.2.2 + r.2.2)

/-- The geographic-entity loop of one query (lines 234–258). Returns the
post-loop state, the collected `local_nodes`, and the number of calls
made to the web search collaborator. -/
def enrichLocations (gov : String → Option Dict) (web : String → Dict)
    (st : RagState) (locs : List String) : RagState × List Dict × Nat :=
  locs.foldl (enrichStep gov web) (st, [], 0)

/-- Two identical queries naming the same locations, run back to back in
one process session: the state threads through, the web-collaborator
call counts add. -/
def sessionTwoQueries (gov : String → Option Dict) (web : String → Dict)
    (st : RagState) (locs : List String) : RagState × Nat :=
  let r₁ := enrichLocations gov web st locs
  let r₂ := enrichLocations gov web r₁.1 locs
  (r₂.1, r₁.2.2 + r₂.2.2)

-- Payload validation in `web_search.search_and_extract_web_data`
-- (lines 100–152): the portion from "content obtained" onward. The Exa
-- search/result plumbing before it is network I/O that either produces a
-- `(url, title, rawContent)` triple or returns `{}` early.

/-- `_has_useful_values`: some entry outside the three identity/source
keys holds a value that is not `None`, not `""`, and whose string form
does not strip/lower to `"none"`. -/
def hasUsefulValues (d : Dict) : Bool :=
  d.any fun p =>
    if p.1 = "Neighborhood Name" ∨ p.1 = "Source" ∨ p.1 = "data_type" then false
    else
      match p.2 with
      | Val.null => false
      | Val.str s => s ≠ "" && (lowerString (pyStrip s) ≠ "none")
      | Val.num _ => true

/-- The annotation of an accepted structured payload (lines 135–138):
`Neighborhood Name`, `Source` and `data_type` are written in that order. -/
def annotateStructured (structured : Dict) (query url : String) : Dict :=
  dictInsert
    (dictInsert (dictInsert structured "Neighborhood Name" (Val.str query))
      "Source" (Val.str url))
    "data_type" (Val.str "local")

/-- The fallback record built at lines 143–149 when the structured payload
is rejected: identity, source, title, a 500-character content preview,
and `data_type = local`. -/
def basicData (query url title rawContent : String) : Dict :=
  [("Neighborhood Name", Val.str query),
   ("Source", Val.str url),
   ("Title", Val.str title),
   ("Content_Preview",
     Val.str (if 500 < rawContent.length
              then String.mk (rawContent.toList.take 500) ++ "..."
              else rawContent)),
   ("data_type", Val.str "local")]

/-- `search_and_extract_web_data` from the point where the top result's
content is in hand (lines 109–152): empty content returns `{}`; a
structured payload passing `_has_useful_values` is annotated and
returned; otherwise the fallback basic record is returned. -/
def webExtractFromContent (query url title rawContent : String)
    (structured : Dict) : Dict :=
  if rawContent = "" then []
  else if structured ≠ [] ∧ hasUsefulValues structured then
    annotateStructured structured query url
  else basicData query url title rawContent

-- `VectorStore.search` (vector_embeddings.py lines 115–133). The FAISS
-- call is an oracle from the requested k to the `(distances, indices)`
-- pair of row lists; for a single query vector FAISS returns one row in
-- each. `indices[0]` is zipped against the ROWS of `distances`, and each
-- kept entry pairs a document with `1/(1+distance)` applied elementwise
-- to a whole distance row.

-- Spec-side comparison for the hybrid-ranker claim (refinement check).

/-- Modelled from the spec: the claimed sort key of the hybrid ranker,
under which the sentinel `"unknown"` and a missing `Date` field are the
lowest (oldest) key (`none`), and any other date is itself. -/
def specDateKey (p : TNode) : Option String :=
  match dictGet p.2 "Date" with
  | some (Val.str s) => if s = "unknown" then none else some s
  | _ => none

/-- Modelled from the spec: `a` sorts at-or-below `b` under the claimed
key order (`none`, the unknown/missing sentinel, is the lowest key). -/
def specDateLE (a b : TNode) : Bool :=
  match specDateKey a, specDateKey b with
  | none, _ => true
  | some _, none => false
  | some s, some t => strLE s t

-- Concrete fixtures used by witnesses and counterexamples.

/-- A candidate node carrying only a `Date` attribute, tagged with an
object id. -/
def dateNode (tag : Nat) (d : String) : TNode :=
  (tag, [("Date", Val.str d)])

/-- Eleven distinct candidates: one with the sentinel date `"unknown"`,
ten with quarters 2010:Q1 … 2019:Q1. -/
def exCandidates : List TNode :=
  dateNode 0 "unknown" ::
    (List.range 10).map (fun i => dateNode (i + 1) (toString (2010 + i) ++ ":Q1"))

/-- A web collaborator returning a useful Seattle record. -/
def webSeattle : String → Dict :=
  fun loc => [("Neighborhood Name", Val.str loc), ("Population", Val.num 750000)]

/-- A government-indicator collaborator that finds nothing. -/
def govNone : String → Option Dict := fun _ => none

/-- An engine state with an empty graph and an empty vector index. -/
def emptyState : RagState := ⟨[], ⟨[], true⟩⟩

/-- Python sequence indexing `l[i]` with negative-index wraparound;
`none` is an `IndexError`. -/
def pyIndex (l : List Dict) (i : Int) : Option Dict :=
  if 0 ≤ i then l.get? i.toNat
  else
    let j := (l.length : Int) + i
    if 0 ≤ j then l.get? j.toNat else none

/-- `VectorStore.search`: `none` models an uncaught exception (e.g. an
`IndexError` from `indices[0]` on an empty shape or a negative index past
the front); `some results` is the returned list. -/
def vsSearch (modelAvailable : Bool) (metadata : List Dict)
    (indexBuilt : Bool)
    (faiss : Nat → List (List ℚ) × List (List Int)) (topK : Nat) :
    Option (List (Dict × List ℚ)) :=
  if modelAvailable = false ∨ indexBuilt = false then some []
  else
    let k := min topK metadata.length
    let dist := (faiss k).1
    let ind := (faiss k).2
    match ind.head? with
    | none => none
    | some row0 =>
        (row0.zip dist).foldl
          (fun acc p =>
            match acc with
            | none => none
            | some res =>
                if p.1 < (metadata.length : Int) then
                  match pyIndex metadata p.1 with
                  | none => none
                  | some doc =>
                      some (res ++ [(doc, p.2.map fun dᵢ => 1 / (1 + dᵢ))])
                else some res)
          (some [])

-- The comparison `charsLE` is a total preorder, as needed for sorting.

theorem charsLE_total (a b : List Char) :
    charsLE a b = true ∨ charsLE b a = true := by
  induction a generalizing b with
  | nil => exact Or.inl rfl
  | cons x xs ih =>
      cases b with
      | nil => exact Or.inr rfl
      | cons y ys =>
          by_cases hxy : x = y
          · subst hxy
            rcases ih ys with h | h
            · exact Or.inl (by simp [charsLE, h])
            · exact Or.inr (by simp [charsLE, h])
          · rcases lt_trichotomy x y with h | h | h
            · exact Or.inl (by simp [charsLE, hxy, h])
            · exact absurd h hxy
            · exact Or.inr (by simp [charsLE, Ne.symm hxy, h])

theorem charsLE_trans (a b c : List Char)
    (h₁ : charsLE a b = true) (h₂ : charsLE b c = true) :
    charsLE a c = true := by
  induction a generalizing b c with
  | nil => rfl
  | cons x xs ih =>
      cases b with
      | nil => exact absurd h₁ (by simp [charsLE])
      | cons y ys =>
          cases c with
          | nil => exact absurd h₂ (by simp [charsLE])
          | cons z zs =>
              by_cases hxy : x = y
              · subst hxy
                by_cases hxz : x = z
                · subst hxz
                  simp only [charsLE, if_pos rfl] at h₁ h₂ ⊢
                  exact ih ys zs h₁ h₂
                · simp only [charsLE, if_pos rfl] at h₁
                  simpa [charsLE, hxz] using h₂
              · have hlt₁ : x < y := by simpa [charsLE, hxy] using h₁
                by_cases hyz : y = z
                · subst hyz
                  simp [charsLE, hxy, hlt₁]
                · have hlt₂ : y < z := by simpa [charsLE, hyz] using h₂
                  have hxz : x < z := lt_trans hlt₁ hlt₂
                  simp [charsLE, ne_of_lt hxz, hxz]

theorem strLE_total (s t : String) : strLE s t = true ∨ strLE t s = true :=
  charsLE_total s.toList t.toList

theorem strLE_trans (s t u : String)
    (h₁ : strLE s t = true) (h₂ : strLE t u = true) : strLE s u = true :=
  charsLE_trans s.toList t.toList u.toList h₁ h₂

-- Lemmas about the stable descending date sort.

theorem length_insertByDateDesc (x : TNode) (l : List TNode) :
    (insertByDateDesc x l).length = l.length + 1 := by
  induction l with
  | nil => rfl
  | cons y ys ih =>
      unfold insertByDateDesc
      by_cases h : strLE (dateKey y) (dateKey x) = true
      · simp [h]
      · simp [h, ih]

theorem length_sortByDateDesc (l : List TNode) :
    (sortByDateDesc l).length = l.length := by
  induction l with
  | nil => rfl
  | cons x xs ih => simp [sortByDateDesc, length_insertByDateDesc, ih]

theorem mem_insertByDateDesc {y x : TNode} {l : List TNode} :
    y ∈ insertByDateDesc x l ↔ y = x ∨ y ∈ l := by
  induction l with
  | nil => simp [insertByDateDesc]
  | cons z zs ih =>
      unfold insertByDateDesc
      by_cases h : strLE (dateKey z) (dateKey x) = true
      · simp [h]
      · simp [h, ih]
        tauto

theorem mem_sortByDateDesc {y : TNode} {l : List TNode} :
    y ∈ sortByDateDesc l ↔ y ∈ l := by
  induction l with
  | nil => simp [sortByDateDesc]
  | cons x xs ih => simp [sortByDateDesc, mem_insertByDateDesc, ih]

theorem pairwise_insertByDateDesc (x : TNode) (l : List TNode)
    (h : l.Pairwise fun a b => strLE (dateKey b) (dateKey a) = true) :
    (insertByDateDesc x l).Pairwise
      fun a b => strLE (dateKey b) (dateKey a) = true := by
  induction l with
  | nil => simp [insertByDateDesc]
  | cons y ys ih =>
      unfold insertByDateDesc
      rcases List.pairwise_cons.mp h with ⟨hy, hys⟩
      by_cases hle : strLE (dateKey y) (dateKey x) = true
      · rw [if_pos hle]
        refine List.pairwise_cons.mpr ⟨?_, h⟩
        intro z hz
        rcases List.mem_cons.mp hz with rfl | hz
        · exact hle
        · exact strLE_trans _ _ _ (hy z hz) hle
      · rw [if_neg hle]
        refine List.pairwise_cons.mpr ⟨?_, ih hys⟩
        intro z hz
        rcases mem_insertByDateDesc.mp hz with rfl | hz
        · rcases strLE_total (dateKey y) (dateKey z) with h' | h'
          · exact absurd h' hle
          · exact h'
        · exact hy z hz

theorem pairwise_sortByDateDesc (l : List TNode) :
    (sortByDateDesc l).Pairwise
      fun a b => strLE (dateKey b) (dateKey a) = true := by
  induction l with
  | nil => simp [sortByDateDesc]
  | cons x xs ih => exact pairwise_insertByDateDesc x (sortByDateDesc xs) ih

/-- C1 (amended): when the deduplicated candidate set exceeds the cap of
10, `search_graph` returns exactly 10 candidates, ordered by the `Date`
string descending under Python string comparison — so a missing date
sorts as the default `"1989:Q1"` while the sentinel `"unknown"` compares
above every `"YYYY:Qn"` date (it sorts as the NEWEST key, not the
oldest) — and every returned candidate comes from the candidate set. -/
theorem searchGraphCap_cap_and_order (relevant : List TNode)
    (h : 10 < (dedupByIdTag relevant).length) :
    (searchGraphCap relevant).length = 10 ∧
    (searchGraphCap relevant).Pairwise
      (fun a b => strLE (dateKey b) (dateKey a) = true) ∧
    ∀ p ∈ searchGraphCap relevant, p ∈ dedupByIdTag relevant := by
  unfold searchGraphCap
  simp only [h, if_true]
  refine ⟨?_, ?_, ?_⟩
  · rw [List.length_take, length_sortByDateDesc]
    omega
  · exact (pairwise_sortByDateDesc (dedupByIdTag relevant)).sublist
      (List.take_sublist 10 (sortByDateDesc (dedupByIdTag relevant)))
  · intro p hp
    exact mem_sortByDateDesc.mp (List.mem_of_mem_take hp)

theorem searchGraphCap_cap_and_order_witness :
    (searchGraphCap exCandidates).length = 10 ∧
    (searchGraphCap exCandidates).Pairwise
      (fun a b => strLE (dateKey b) (dateKey a) = true) ∧
    ∀ p ∈ searchGraphCap exCandidates, p ∈ dedupByIdTag exCandidates :=
  searchGraphCap_cap_and_order exCandidates (by decide)

/-- C1 counterexample: on eleven candidates whose dates are `"unknown"`
and 2010:Q1 … 2019:Q1, the capped result of `search_graph` is NOT ordered
descending under the claimed key order (`"unknown"` lowest): the
`"unknown"` candidate is ranked first, above all dated candidates,
because Python compares the raw strings and `'u' > '2'`. -/
theorem searchGraphCap_unknown_not_lowest :
    ¬ (searchGraphCap exCandidates).Pairwise fun a b => specDateLE b a = true := by
  intro h
  have heq : searchGraphCap exCandidates =
      [dateNode 0 "unknown", dateNode 10 "2019:Q1", dateNode 9 "2018:Q1",
       dateNode 8 "2017:Q1", dateNode 7 "2016:Q1", dateNode 6 "2015:Q1",
       dateNode 5 "2014:Q1", dateNode 4 "2013:Q1", dateNode 3 "2012:Q1",
       dateNode 2 "2011:Q1"] := by decide
  rw [heq] at h
  have h1 := (List.pairwise_cons.mp h).1 (dateNode 10 "2019:Q1") (by decide)
  exact absurd h1 (by decide)

/-- C2: every semantic hit the pipeline keeps — both as filtered
`(doc, similarity)` pairs and as incorporated candidate dicts — has
similarity at least the 0.3 floor (the source filter is strict, which
implies the claimed weak bound). -/
theorem semanticKeep_floor (results : List (Dict × ℚ)) :
    (∀ p ∈ semanticKeep results, 3 / 10 ≤ p.2) ∧
    (∀ p ∈ incorporateSemantic results, 3 / 10 ≤ p.2) := by
  constructor
  · intro p hp
    have := (List.mem_filter.mp hp).2
    exact le_of_lt (by exact_mod_cast of_decide_eq_true this)
  · intro p hp
    rcases List.mem_map.mp hp with ⟨q, hq, rfl⟩
    have := (List.mem_filter.mp hq).2
    exact le_of_lt (by exact_mod_cast of_decide_eq_true this)

theorem semanticKeep_floor_witness :
    (3 : ℚ) / 10 ≤ (1 : ℚ) / 2 :=
  (semanticKeep_floor [([], 1 / 2)]).1 ([], 1 / 2)
    (List.mem_filter.mpr
      ⟨List.mem_singleton_self _, decide_eq_true (by norm_num)⟩)

-- Lemmas for the upsert/merge law.

theorem graphGet_graphSet_self (g : Graph) (i : String) (d : Dict) :
    graphGet (graphSet g i d) i = some d := by
  induction g with
  | nil => simp [graphSet, graphGet]
  | cons p rest ih =>
      obtain ⟨i', d'⟩ := p
      by_cases h : i' = i
      · simp [graphSet, graphGet, h]
      · simp [graphSet, graphGet, h, ih]

/-- Reduction of `add_node_to_graph` on a payload whose location name is
the non-empty string `s`. -/
theorem addNodeToGraph_eq (g : Graph) (nodeData : Dict) (s : String)
    (hNN : dictGet nodeData "Neighborhood Name" = some (Val.str s)) (hs : s ≠ "") :
    addNodeToGraph g nodeData =
      match graphGet g ("local_" ++ slugify s) with
      | none =>
          graphSet g ("local_" ++ slugify s)
            (dictSetdefault nodeData "data_type" (Val.str "local"))
      | some existing =>
          graphSet g ("local_" ++ slugify s) (dictUpdate existing nodeData) := by
  unfold addNodeToGraph
  rw [hNN]
  show (if s = "" then g
        else
          let nodeId := "local_" ++ slugify s
          match graphGet g nodeId with
          | none =>
              graphSet g nodeId (dictSetdefault nodeData "data_type" (Val.str "local"))
          | some existing => graphSet g nodeId (dictUpdate existing nodeData)) = _
  rw [if_neg hs]

/-- After one `add_node_to_graph` upsert of a two-field payload
`{'Neighborhood Name': s, f: x}`, the node stored under `local_{slug}`
holds `f = x`, and every other non-`data_type` field is exactly what the
previous node under that id held (or absent when the id was fresh). -/
theorem addNode_pair (g : Graph) (s f : String) (x : ℚ) (hs : s ≠ "")
    (hf₁ : "Neighborhood Name" ≠ f) (hf₂ : f ≠ "data_type") :
    ∃ d,
      graphGet (addNodeToGraph g [("Neighborhood Name", Val.str s), (f, Val.num x)])
        ("local_" ++ slugify s) = some d ∧
      dictGet d f = some (Val.num x) ∧
      ∀ k, k ≠ f → k ≠ "Neighborhood Name" → k ≠ "data_type" →
        dictGet d k =
          (graphGet g ("local_" ++ slugify s)).bind fun old => dictGet old k := by
  have hNN : dictGet [("Neighborhood Name", Val.str s), (f, Val.num x)]
      "Neighborhood Name" = some (Val.str s) := by simp [dictGet]
  have hpay : dictGet [("Neighborhood Name", Val.str s), (f, Val.num x)]
      "data_type" = none := by simp [dictGet, hf₂]
  rw [addNodeToGraph_eq g _ s hNN hs]
  cases hg : graphGet g ("local_" ++ slugify s) with
  | none =>
      refine ⟨_, graphGet_graphSet_self .., ?_, ?_⟩
      · simp [dictSetdefault, dictGet, hf₁, hf₂]
      · intro k hk₁ hk₂ hk₃
        simp [dictSetdefault, dictGet, hf₂, Ne.symm hk₁, Ne.symm hk₂, Ne.symm hk₃]
  | some old =>
      refine ⟨_, graphGet_graphSet_self .., ?_, ?_⟩
      · exact dictGet_dictUpdate_last old [("Neighborhood Name", Val.str s)] f
          (Val.num x)
          (by intro p hp
              rcases List.mem_singleton.mp hp with rfl
              exact hf₁)
      · intro k hk₁ hk₂ hk₃
        have hkeys : ∀ p ∈ [("Neighborhood Name", Val.str s), (f, Val.num x)],
            p.1 ≠ k := by
          intro p hp
          rcases List.mem_cons.mp hp with rfl | hp
          · exact Ne.symm hk₂
          · rcases List.mem_singleton.mp hp with rfl
            exact Ne.symm hk₁
        rw [dictGet_dictUpdate_not_mem old _ k hkeys]
        rfl

/-- C3: upserting `{a: x}` then `{b: y}` under the same location id (for
any starting graph) leaves a node holding both `a = x` and `b = y`: the
second upsert field-merges, overwrites `b`, and never reverts or loses
`a`. Instantiating `x` at 1 and 3 gives the two scenarios of the claim. -/
theorem addNode_merge_law (g : Graph) (s : String) (x y : ℚ) (hs : s ≠ "") :
    ∃ d,
      graphGet
        (addNodeToGraph
          (addNodeToGraph g [("Neighborhood Name", Val.str s), ("a", Val.num x)])
          [("Neighborhood Name", Val.str s), ("b", Val.num y)])
        ("local_" ++ slugify s) = some d ∧
      dictGet d "a" = some (Val.num x) ∧ dictGet d "b" = some (Val.num y) := by
  obtain ⟨d₁, hd₁, ha₁, _⟩ := addNode_pair g s "a" x hs (by decide) (by decide)
  obtain ⟨d₂, hd₂, hb₂, hrest₂⟩ :=
    addNode_pair (addNodeToGraph g [("Neighborhood Name", Val.str s), ("a", Val.num x)])
      s "b" y hs (by decide) (by decide)
  refine ⟨d₂, hd₂, ?_, hb₂⟩
  rw [hrest₂ "a" (by decide) (by decide) (by decide), hd₁]
  exact ha₁

theorem addNode_merge_law_witness :
    ∃ d,
      graphGet
        (addNodeToGraph
          (addNodeToGraph []
            [("Neighborhood Name", Val.str "Seattle"), ("a", Val.num 1)])
          [("Neighborhood Name", Val.str "Seattle"), ("b", Val.num 2)])
        ("local_" ++ slugify "Seattle") = some d ∧
      dictGet d "a" = some (Val.num 1) ∧ dictGet d "b" = some (Val.num 2) :=
  addNode_merge_law [] "Seattle" 1 2 (by decide)

-- Lemmas about the enrichment loop.

theorem enrichLocation_calls (gov : String → Option Dict) (web : String → Dict)
    (st : RagState) (locals : List Dict) (loc : String) :
    (enrichLocation gov web st locals loc).2.2 = 1 := by
  unfold enrichLocation
  cases gov loc <;> dsimp only <;> split <;> rfl

theorem enrichLocation_vs (gov : String → Option Dict) (web : String → Dict)
    (st : RagState) (locals : List Dict) (loc : String) :
    ((enrichLocation gov web st locals loc).1).vs = st.vs := by
  unfold enrichLocation
  cases gov loc <;> dsimp only <;> split <;> rfl

theorem enrichLoop_calls (gov : String → Option Dict) (web : String → Dict)
    (locs : List String) :
    ∀ acc : RagState × List Dict × Nat,
      ((locs.foldl (enrichStep gov web) acc).2.2) = acc.2.2 + locs.length := by
  induction locs with
  | nil => intro acc; simp
  | cons l ls ih =>
      intro acc
      rw [List.foldl_cons, ih]
      show acc.2.2 + (enrichLocation gov web acc.1 acc.2.1 l).2.2 + ls.length = _
      rw [enrichLocation_calls]
      simp only [List.length_cons]
      omega

theorem enrichLoop_vs (gov : String → Option Dict) (web : String → Dict)
    (locs : List String) :
    ∀ acc : RagState × List Dict × Nat,
      (((locs.foldl (enrichStep gov web) acc).1).vs) = (acc.1).vs := by
  induction locs with
  | nil => intro acc; rfl
  | cons l ls ih =>
      intro acc
      rw [List.foldl_cons, ih]
      exact enrichLocation_vs gov web acc.1 acc.2.1 l

/-- C4 (amended): there is no per-session cache — the geographic loop of
`get_graph_rag_context` invokes the web search collaborator once per
listed location on EVERY query, so two identical queries naming the same
locations trigger twice that many network calls (two calls for one
location), not one. -/
theorem enrich_calls_per_query (gov : String → Option Dict) (web : String → Dict)
    (st : RagState) (locs : List String) :
    (enrichLocations gov web st locs).2.2 = locs.length ∧
    (sessionTwoQueries gov web st locs).2 = 2 * locs.length := by
  constructor
  · simpa using enrichLoop_calls gov web locs (st, [], 0)
  · show (enrichLocations gov web st locs).2.2 +
        (enrichLocations gov web (enrichLocations gov web st locs).1 locs).2.2 =
        2 * locs.length
    have h₁ := enrichLoop_calls gov web locs (st, ([], 0))
    have h₂ := enrichLoop_calls gov web locs
      ((enrichLocations gov web st locs).1, ([], 0))
    simp only [enrichLocations] at h₁ h₂ ⊢
    omega

/-- C4 counterexample: with one unresolved location, two identical
queries in the same session make 2 web-collaborator calls, not 1 — the
second query does not reuse the stored `local_Seattle` node to skip the
network call. -/
theorem sessionTwoQueries_two_calls :
    (sessionTwoQueries govNone webSeattle emptyState ["Seattle"]).2 = 2 ∧
    (sessionTwoQueries govNone webSeattle emptyState ["Seattle"]).2 ≠ 1 := by
  decide

/-- C5 (amended): when the ranked node list, the enrichment node list AND
the detected geographic entity list are all empty, the assembled context
is byte-for-byte the no-data sentinel, for every query type and every
trend/policy collaborator outcome. (When geographic entities were
detected but unresolved, the disclosure note is appended instead — see
the counterexample.) -/
theorem buildContext_empty_sentinel (qt : String) (trend : Option String)
    (recs : Option (List (String × ℚ × String))) :
    buildContext [] qt [] [] trend recs = noDataMsg := by
  simp [buildContext, createContextFromNodes]

/-- C5 counterexample: with both node lists empty but a geographic entity
detected, the context is the sentinel PLUS the appended disclosure note,
not the bare sentinel. -/
theorem buildContext_geo_note_appended :
    buildContext [] "general" ["Seattle"] [] none none ≠ noDataMsg := by
  decide

-- Entity-extraction default bundle.

/-- C6 (amended): for a query in which no geographic, wealth-percentile
or demographic term is recognized, `extract_entities` substitutes the
default bundle — wealth groups `[Top1Percent, Bottom50Percent]`,
demographics `["wealth"]` (NOT empty), flat list
`[Top1Percent, Bottom50Percent, "wealth"]` — and the intent is whatever
the keyword precedence computes (general only when no intent keyword
occurs); the flat entity list is never empty. -/
theorem extract_entities_default (ner : String → List String) (q : String)
    (h : flatListPre ner q = []) :
    extract_entities ner q =
      { geographic := [], wealth_groups := ["Top1Percent", "Bottom50Percent"],
        demographics := ["wealth"], query_type := queryTypeOf q,
        entities_list := ["Top1Percent", "Bottom50Percent", "wealth"] } ∧
    (extract_entities ner q).entities_list ≠ [] := by
  have hgeo : geoEntitiesOf ner q = [] := by
    unfold flatListPre at h
    rcases List.append_eq_nil.mp (List.append_eq_nil.mp h).1 with ⟨hmap, -⟩
    · exact List.map_eq_nil_iff.mp hmap
  constructor
  · simp [extract_entities, h, hgeo]
  · simp [extract_entities, h]

theorem extract_entities_default_witness :
    extract_entities (fun _ => []) "hello" =
      { geographic := [], wealth_groups := ["Top1Percent", "Bottom50Percent"],
        demographics := ["wealth"], query_type := queryTypeOf "hello",
        entities_list := ["Top1Percent", "Bottom50Percent", "wealth"] } ∧
    (extract_entities (fun _ => []) "hello").entities_list ≠ [] :=
  extract_entities_default (fun _ => []) "hello" (by decide)

/-- C6 counterexample: the query `"hello"` contains no recognizable
entity term, yet the returned demographics list is `["wealth"]`, not the
empty list the claim states. -/
theorem extract_entities_demographics_not_empty :
    flatListPre (fun _ => []) "hello" = [] ∧
    (extract_entities (fun _ => []) "hello").demographics = ["wealth"] ∧
    (extract_entities (fun _ => []) "hello").demographics ≠ [] := by
  decide

/-- C7 (amended): a present financial field renders in billions with one
decimal and an UPPERCASE `B` suffix (`$X.YB`, not the claimed lowercase
`$X.Yb`) whenever its magnitude is at least 1,000 (the source comparison
is `>=`, not strictly greater), and as a thousands-separated dollar
amount otherwise; in particular the node `{"Net worth": 15000}` renders
the context line `Net worth: $15.0B`. -/
theorem createContext_currency_format :
    strContainsB (createContextFromNodes [[("Net worth", Val.num 15000)]])
      "Net worth: $15.0B" = true ∧
    formatCurrency 15000 = "$15.0B" ∧
    formatCurrency 1000 = "$1.0B" ∧
    formatCurrency 999 = "$999" ∧
    formatCurrency (-1500) = "$-1.5B" ∧
    formatCurrency 950 = "$950" := by
  decide

/-- C7 counterexample: the assembled context for `{"Net worth": 15000}`
does NOT contain the claimed lowercase line `"Net worth: $15.0b"` — the
source renders the suffix as an uppercase `B`. -/
theorem createContext_no_lowercase_b :
    strContainsB (createContextFromNodes [[("Net worth", Val.num 15000)]])
      "Net worth: $15.0b" = false := by
  decide

/-- C8 (amended): a payload that fails the usefulness check (or is empty)
is NOT returned as the structured record, but the resolver does not
return an absent/empty result either: it returns the fallback basic
record (identity, source, title, content preview, `data_type = local`),
which is non-empty — and therefore truthy, so the caller inserts it into
the graph. -/
theorem webExtract_fallback (query url title rawContent : String)
    (structured : Dict) (hc : rawContent ≠ "")
    (h : ¬(structured ≠ [] ∧ hasUsefulValues structured = true)) :
    webExtractFromContent query url title rawContent structured =
      basicData query url title rawContent ∧
    webExtractFromContent query url title rawContent structured ≠ [] := by
  unfold webExtractFromContent
  rw [if_neg hc, if_neg h]
  exact ⟨rfl, by simp [basicData]⟩

theorem webExtract_fallback_witness :
    webExtractFromContent "Seattle" "https://seattle.gov" "T" "census text"
      [("Population", Val.str "")] =
      basicData "Seattle" "https://seattle.gov" "T" "census text" ∧
    webExtractFromContent "Seattle" "https://seattle.gov" "T" "census text"
      [("Population", Val.str "")] ≠ [] :=
  webExtract_fallback "Seattle" "https://seattle.gov" "T" "census text"
    [("Population", Val.str "")] (by decide) (by decide)

/-- C8 counterexample: a payload whose only metric is empty fails the
usefulness check, yet the function returns a non-empty record (the
fallback basic record), not the absent/empty result the claim states. -/
theorem webExtract_useless_payload_not_empty :
    hasUsefulValues [("Population", Val.str "")] = false ∧
    webExtractFromContent "Seattle" "https://seattle.gov" "Seattle data"
      "census text about seattle" [("Population", Val.str "")] ≠ [] := by
  decide

/-- C9 (amended): the enrichment loop mutates only the graph — the
vector store (its metadata and index) is never touched, so no index
rebuild or incremental add is triggered by an enrichment upsert; the
index holds exactly the documents loaded at startup. -/
theorem enrich_leaves_vector_store (gov : String → Option Dict)
    (web : String → Dict) (st : RagState) (locs : List String) :
    ((enrichLocations gov web st locs).1).vs = st.vs :=
  enrichLoop_vs gov web locs (st, [], 0)

/-- C9 counterexample: enriching `"Seattle"` from an empty state upserts
the node `local_Seattle` into the graph, yet the vector store is
unchanged and its metadata still empty — the index was NOT recomputed,
so a subsequent semantic search over it cannot return the new node. -/
theorem enrich_adds_node_without_reindex :
    ((enrichLocations govNone webSeattle emptyState ["Seattle"]).1).vs
      = emptyState.vs ∧
    ((enrichLocations govNone webSeattle emptyState ["Seattle"]).1).vs.metadata
      = [] ∧
    graphGet ((enrichLocations govNone webSeattle emptyState ["Seattle"]).1).graph
      "local_Seattle" ≠ none := by
  decide

/-- C10: whenever the embedding model and index are available, the
metadata list is non-empty, `top_k ≥ 1`, and FAISS returns its
one-row-per-query shape (the distances array has exactly one row), any
result list `VectorStore.search` returns holds at most one
(document, similarity) pair: the loop zips `indices[0]` against the ROWS
of the two-dimensional distances array, of which there is exactly one. -/
theorem vsSearch_at_most_one (metadata : List Dict)
    (faiss : Nat → List (List ℚ) × List (List Int)) (topK : Nat)
    (res : List (Dict × List ℚ))
    (hm : metadata ≠ []) (hk : 1 ≤ topK)
    (hshape : (faiss (min topK metadata.length)).1.length = 1)
    (heq : vsSearch true metadata true faiss topK = some res) :
    res.length ≤ 1 := by
  unfold vsSearch at heq
  rw [if_neg (by simp)] at heq
  dsimp only at heq
  cases hhead : ((faiss (min topK metadata.length)).2).head? with
  | none =>
      rw [hhead] at heq
      simp at heq
  | some row0 =>
      rw [hhead] at heq
      dsimp only at heq
      have hlen : (row0.zip (faiss (min topK metadata.length)).1).length ≤ 1 := by
        rw [List.length_zip, hshape]
        omega
      rcases hz : row0.zip (faiss (min topK metadata.length)).1 with _ | ⟨p, rest⟩
      · rw [hz] at heq
        simp only [List.foldl_nil] at heq
        cases heq
        simp
      · rcases rest with _ | ⟨p₂, rest₂⟩
        · rw [hz] at heq
          simp only [List.foldl_cons, List.foldl_nil] at heq
          by_cases hidx : p.1 < (metadata.length : Int)
          · rw [if_pos hidx] at heq
            cases hpi : pyIndex metadata p.1 with
            | none =>
                rw [hpi] at heq
                simp at heq
            | some doc =>
                rw [hpi] at heq
                cases heq
                simp
          · rw [if_neg hidx] at heq
            cases heq
            simp
        · rw [hz] at hlen
          simp at hlen

theorem vsSearch_at_most_one_witness :
    ([([("x", Val.num 1)], [(1 : ℚ) / (1 + 0)])] : List (Dict × List ℚ)).length
      ≤ 1 :=
  vsSearch_at_most_one [[("x", Val.num 1)]]
    (fun k => ([List.replicate k 0], [[0]])) 1
    [([("x", Val.num 1)], [(1 : ℚ) / (1 + 0)])]
    (by decide) (by decide) (by decide) rfl
